import Mathlib

set_option maxRecDepth 16000

/-!
Verification development for the tiviem EVM interpreter.

The definitions below are a shallow embedding of `src/opcodes.ts` and
`src/bytecode-parser.ts`.  JavaScript BigInt values are mathematical
integers (`Int`, or `ℕ` where the source value is provably non-negative),
JavaScript `number` gas values are `ℚ` (the source performs non-integer
divisions on gas), byte arrays are `List ℕ`, and the operand stack is a
`List JSVal` in JavaScript array order: the TOP of the stack is the LAST
element of the list, `Array.prototype.pop` removes the last element.
-/

namespace Tiviem

/-- JavaScript value that can appear on the interpreter's operand stack:
either a BigInt (always non-negative in this interpreter) or `undefined`,
which leaks onto the stack through out-of-range array reads in the DUP and
SWAP helpers of the source. -/
inductive JSVal where
  | bigv (n : ℕ)
  | undefv
deriving DecidableEq, Repr

/-- Value returned by `Array.prototype.pop`: the last element, or
`undefined` when the array is empty. -/
def jsPopVal (s : List JSVal) : JSVal := (s.getLast?).getD JSVal.undefv

/-- Array left after `Array.prototype.pop`: everything but the last element
(an empty array stays empty). -/
def jsPopRest (s : List JSVal) : List JSVal := s.dropLast

/-- Block header (`type Block` in bytecode-parser.ts). -/
structure Block where
  basefee : ℕ
  coinbase : ℕ
  timestamp : ℕ
  number : ℕ
  difficulty : ℕ
  gasLimit : ℕ
  chainId : ℕ
deriving DecidableEq, Repr

/-- Code attached to an account (`code` field of `AccountState`). -/
structure Code where
  asm : Option String
  bin : List ℕ
deriving DecidableEq, Repr

/-- Account state (`type AccountState` in bytecode-parser.ts).  Balances are
BigInt and the interpreter drives them negative without complaint, hence
`Int`. -/
structure AccountState where
  balance : Int
  nonce : Int
  code : Option Code := none
  storage : Option (List (ℕ × ℕ)) := none
deriving DecidableEq, Repr

/-- World state: the `Map<bigint, AccountState>`.  JavaScript `Map` keys are
unique; the association list is accessed only through `mapGet` and `mapSet`
below, which keep keys unique. -/
abbrev WorldState := List (ℕ × AccountState)

/-- Map.prototype.get. -/
def mapGet : WorldState → ℕ → Option AccountState
  | [], _ => none
  | (k0, v0) :: rest, k => if k0 = k then some v0 else mapGet rest k

/-- Map.prototype.set: update the entry in place if the key exists, append
otherwise. -/
def mapSet : WorldState → ℕ → AccountState → WorldState
  | [], k, v => [(k, v)]
  | (k0, v0) :: rest, k, v =>
      if k0 = k then (k, v) :: rest else (k0, v0) :: mapSet rest k v

/-- Log entry (`type Log`): the data field is a BigInt in the source. -/
structure LogEntry where
  address : ℕ
  data : ℕ
  topics : List ℕ
deriving DecidableEq, Repr

/-- Execution context (`interface Context`). -/
structure Context where
  address : ℕ
  caller : ℕ
  origin : ℕ
  gasPrice : ℕ
  gasLeft : ℚ
  isStatic : Bool
  callValue : ℕ
  callData : List ℕ
  bytecode : List ℕ
  block : Block
  state : WorldState
deriving DecidableEq, Repr

/-- Per-frame machine state (`interface RunState`).  The scratch `opcode`
field of the source is re-read from the bytecode each iteration and is not
kept here. -/
structure RunState where
  programCounter : ℕ
  memory : List ℕ
  logs : List LogEntry
  stack : List JSVal
  returndata : List ℕ
  context : Context
deriving DecidableEq, Repr

/-- Handler result (`type InstructionOutput`).  The source type has no state
field: handlers mutate `context.state` through the shared `Map` reference
(sub-calls write the map in place).  The pure embedding returns the updated
map in `stateAfter` and the executor adopts it, which renders the same
aliasing. -/
structure InstructionOutput where
  stack : List JSVal
  programCounter : ℕ
  continueExecution : Bool
  error : Option String := none
  memory : Option (List ℕ) := none
  additionalGas : Option ℚ := none
  returndata : Option (List ℕ) := none
  logs : Option (List LogEntry) := none
  stateAfter : Option WorldState := none
deriving DecidableEq, Repr

/-- Frame result (`type Result`).  The `stack` is reversed on return, so it
is top-first here. -/
structure Result where
  success : Bool
  stack : List JSVal
  memory : List ℕ
  gas : ℚ
  returndata : List ℕ
  logs : List LogEntry
  state : WorldState
deriving DecidableEq, Repr

/-- Outcome of running an embedded fragment: a value, a JavaScript runtime
exception (for example a TypeError from reading a field of `undefined`), or
fuel exhaustion of the embedding (the source loop has no fuel bound and can
loop forever, so the embedding is indexed by fuel). -/
inductive Res (α : Type) where
  | ok (a : α)
  | crash
  | fuelOut
deriving DecidableEq, Repr

/-- BigInt.asUintN 256 on a mathematical integer.  The modulus is written
as a cast natural power so that it evaluates without unfolding the slow
recursive integer-power instances. -/
def asUintN256 (i : Int) : ℕ := (i % ((2 ^ 256 : ℕ) : Int)).toNat

/-- Value of a big-endian byte list, as computed by
`BigInt(uint8ArrayToByteString bytes)`: an empty slice encodes as the string
0x00, that is zero, which the fold also yields on `[]`. -/
def bytesToNat (bs : List ℕ) : ℕ := bs.foldl (fun acc b => acc * 256 + b) 0

/-- Recursion worker for `natAndNot`, structural in a fuel argument so that
it reduces inside the kernel; `m + 1` units of fuel always reach the base
case because m halves each step. -/
def natAndNotAux : ℕ → ℕ → ℕ → ℕ
  | 0, _, _ => 0
  | _ + 1, 0, _ => 0
  | fuel + 1, m, n => m % 2 * (1 - n % 2) + 2 * natAndNotAux fuel (m / 2) (n / 2)

/-- Bitwise and-not on naturals: bit i of the result is
(bit i of m) AND NOT (bit i of n). -/
def natAndNot (m n : ℕ) : ℕ := natAndNotAux (m + 1) m n

/-- JavaScript BigInt bitwise AND: two's complement with infinite sign
extension, `Int.negSucc n` having the bit pattern NOT n. -/
def jsLand : Int → Int → Int
  | .ofNat m, .ofNat n => .ofNat (m &&& n)
  | .ofNat m, .negSucc n => .ofNat (natAndNot m n)
  | .negSucc m, .ofNat n => .ofNat (natAndNot n m)
  | .negSucc m, .negSucc n => .negSucc (m ||| n)

/-- JavaScript BigInt bitwise OR, same convention. -/
def jsLor : Int → Int → Int
  | .ofNat m, .ofNat n => .ofNat (m ||| n)
  | .ofNat m, .negSucc n => .negSucc (natAndNot n m)
  | .negSucc m, .ofNat n => .negSucc (natAndNot m n)
  | .negSucc m, .negSucc n => .negSucc (m &&& n)

/-- JavaScript BigInt bitwise NOT: in two's complement, x maps to -x-1. -/
def jsNot (i : Int) : Int := -i - 1

/-- JavaScript Number expression `1 << s`: both operands are converted to
32-bit integers, the shift count is taken mod 32, and the result is read
back as a SIGNED 32-bit integer, so `1 << 31` is -2^31.  The SIGNEXTEND
handler feeds this shift counts up to 247. -/
def jsShl1Int32 (s : ℕ) : Int :=
  if s % 32 = 31 then -((2 ^ 31 : ℕ) : Int) else ((2 ^ (s % 32) : ℕ) : Int)

/-- Memory pricing (`memoryExpansionCost`).  The source divides
(numOfBytes+31)/32 as a JavaScript float, so `numOfWords` is generally
fractional and only the first summand is floored. -/
def memoryExpansionCost (numOfBytes : ℕ) : ℚ :=
  let numOfWords : ℚ := (numOfBytes + 31) / 32
  ((⌊numOfWords ^ 2 / 512⌋ : Int) : ℚ) + numOfWords * 3

/-- Memory growth (`expandMemory`).  The source rounds up
`prevMemory.length + newLength` — not `newLength` alone — so expansion
overshoots whenever memory is non-empty. -/
def expandMemory (prevMemory : List ℕ) (newLength : ℕ) : List ℕ × ℚ :=
  let newMemoryLength := ((prevMemory.length + newLength + 31) / 32) * 32
  let gasCost := memoryExpansionCost newMemoryLength - memoryExpansionCost prevMemory.length
  (prevMemory ++ List.replicate (newMemoryLength - prevMemory.length) 0, gasCost)

/-- Uint8Array.prototype.set: overwrite `value.length` bytes at `offset`.
Callers ensure `offset + value.length` fits. -/
def writeBytes (memory : List ℕ) (offset : ℕ) (value : List ℕ) : List ℕ :=
  (memory.take offset) ++ value ++ (memory.drop (offset + value.length))

/-- Result record of `setMemorySafely`. -/
structure SetMemResult where
  memory : List ℕ
  additionalGas : ℚ
deriving DecidableEq, Repr

/-- Embedding of `setMemorySafely`: try the raw set; `TypedArray.set` throws
a RangeError exactly when `offset + value.length` exceeds the target length
(also for zero-length writes past the end), and the catch branch expands to
`offset + value.length` and retries. -/
def setMemorySafely (memory : List ℕ) (offset : ℕ) (valueByteArray : List ℕ) : SetMemResult :=
  if offset + valueByteArray.length ≤ memory.length then
    { memory := writeBytes memory offset valueByteArray, additionalGas := 0 }
  else
    let result := expandMemory memory (offset + valueByteArray.length)
    { memory := writeBytes result.1 offset valueByteArray, additionalGas := result.2 }

/-- Result record of `readMemorySafely`. -/
structure ReadMemResult where
  data : ℕ
  dataArray : List ℕ
  memory : List ℕ
  additionalGas : ℚ
deriving DecidableEq, Repr

/-- Embedding of `readMemorySafely`: slice the requested range; `slice`
clamps, so the slice is short exactly when size > 0 and offset + size
exceeds the current length, in which case the memory is expanded first. -/
def readMemorySafely (memory : List ℕ) (offset size : ℕ) : ReadMemResult :=
  let bytesFromMemory := (memory.drop offset).take size
  if bytesFromMemory.length = size then
    { data := bytesToNat bytesFromMemory, dataArray := bytesFromMemory,
      memory := memory, additionalGas := 0 }
  else
    let result := expandMemory memory (offset + size)
    let fullSizedBytesFromMemory := (result.1.drop offset).take size
    { data := bytesToNat fullSizedBytesFromMemory, dataArray := fullSizedBytesFromMemory,
      memory := result.1, additionalGas := result.2 }

/-- Scan loop of `getValidJumpDests`: walk the bytecode, skip PUSH immediate
bytes, mark JUMPDEST (0x5B) positions with 1 and BEGINSUB (0x5C) positions
with 2.  The recursion is structural in a fuel argument so that it reduces
in the kernel; the index i grows by at least one per step, so
`code.length` units of fuel always carry the walk past the end. -/
def markJumpDests (code : List ℕ) : ℕ → ℕ → List ℕ → List ℕ
  | 0, _, jumps => jumps
  | fuel + 1, i, jumps =>
    if i < code.length then
      let opcode := code.getD i 0
      if 0x60 ≤ opcode ∧ opcode ≤ 0x7f then
        markJumpDests code fuel (i + (opcode - 0x5f) + 1) jumps
      else if opcode = 0x5b then
        markJumpDests code fuel (i + 1) (jumps.set i 1)
      else if opcode = 0x5c then
        markJumpDests code fuel (i + 1) (jumps.set i 2)
      else
        markJumpDests code fuel (i + 1) jumps
    else jumps

/-- Embedding of `getValidJumpDests`. -/
def getValidJumpDests (code : List ℕ) : List ℕ :=
  markJumpDests code code.length 0 (List.replicate code.length 0)

/-- STOP (0x00): copy the stack, stop successfully. -/
def stopImpl (rs : RunState) : InstructionOutput :=
  { stack := rs.stack, programCounter := rs.programCounter + 1,
    continueExecution := false, error := none }

/-- ADD (0x01): pop a (top) and b, push BigInt.asUintN 256 (a + b); after a
pop made the popped value `undefined`, the typeof guard reports a stack
underflow with an EMPTIED stack. -/
def addImpl (rs : RunState) : InstructionOutput :=
  match jsPopVal rs.stack, jsPopVal (jsPopRest rs.stack) with
  | .bigv a, .bigv b =>
      { stack := jsPopRest (jsPopRest rs.stack) ++ [.bigv ((a + b) % 2 ^ 256)],
        programCounter := rs.programCounter + 1, continueExecution := true, error := none }
  | _, _ =>
      { stack := [], programCounter := rs.programCounter + 1,
        continueExecution := false, error := some "Stack underflow" }

/-- MUL (0x02): same shape as ADD with multiplication. -/
def mulImpl (rs : RunState) : InstructionOutput :=
  match jsPopVal rs.stack, jsPopVal (jsPopRest rs.stack) with
  | .bigv a, .bigv b =>
      { stack := jsPopRest (jsPopRest rs.stack) ++ [.bigv ((a * b) % 2 ^ 256)],
        programCounter := rs.programCounter + 1, continueExecution := true, error := none }
  | _, _ =>
      { stack := [], programCounter := rs.programCounter + 1,
        continueExecution := false, error := some "Stack underflow" }

/-- SUB (0x03): a is the top operand, the result is
BigInt.asUintN 256 (a - b). -/
def subImpl (rs : RunState) : InstructionOutput :=
  match jsPopVal rs.stack, jsPopVal (jsPopRest rs.stack) with
  | .bigv a, .bigv b =>
      { stack := jsPopRest (jsPopRest rs.stack) ++ [.bigv (asUintN256 ((a : Int) - b))],
        programCounter := rs.programCounter + 1, continueExecution := true, error := none }
  | _, _ =>
      { stack := [], programCounter := rs.programCounter + 1,
        continueExecution := false, error := some "Stack underflow" }

/-- DIV (0x04): zero divisor or zero dividend pushes zero; BigInt division
truncates, and both operands here are non-negative. -/
def divImpl (rs : RunState) : InstructionOutput :=
  match jsPopVal rs.stack, jsPopVal (jsPopRest rs.stack) with
  | .bigv a, .bigv b =>
      if b = 0 ∨ a = 0 then
        { stack := jsPopRest (jsPopRest rs.stack) ++ [.bigv 0],
          programCounter := rs.programCounter + 1, continueExecution := true, error := none }
      else
        { stack := jsPopRest (jsPopRest rs.stack) ++ [.bigv (a / b % 2 ^ 256)],
          programCounter := rs.programCounter + 1, continueExecution := true, error := none }
  | _, _ =>
      { stack := [], programCounter := rs.programCounter + 1,
        continueExecution := false, error := some "Stack underflow" }

/-- SIGNEXTEND (0x0b): b is the top operand (byte count minus one), x below.
For b < 31 the source computes `bits = (b+1)*8`, builds the probe mask with
the 32-bit Number shift `1 << bits - 1` and, when the probed bit of x is
set, pushes `BigInt.asUintN(256, ~msb | x)`. -/
def signextendImpl (rs : RunState) : InstructionOutput :=
  match jsPopVal rs.stack, jsPopVal (jsPopRest rs.stack) with
  | .bigv b, .bigv x =>
      if ¬ b < 31 then
        { stack := jsPopRest (jsPopRest rs.stack) ++ [.bigv (x % 2 ^ 256)],
          programCounter := rs.programCounter + 1, continueExecution := true, error := none }
      else
        let bits := (b + 1) * 8
        let msb := jsLand (jsShl1Int32 (bits - 1)) (x : Int)
        if msb = 0 then
          { stack := jsPopRest (jsPopRest rs.stack) ++ [.bigv (x % 2 ^ 256)],
            programCounter := rs.programCounter + 1, continueExecution := true, error := none }
        else
          { stack := jsPopRest (jsPopRest rs.stack) ++ [.bigv (asUintN256 (jsLor (jsNot msb) x))],
            programCounter := rs.programCounter + 1, continueExecution := true, error := none }
  | _, _ =>
      { stack := [], programCounter := rs.programCounter + 1,
        continueExecution := false, error := some "Stack underflow" }

/-- JUMP (0x56): `Number(tempStack.pop())` is NaN on an empty stack, which
still has typeof number, so the underflow guard in the source is dead; an
invalid or NaN destination fails the `jumps[dest] != 1` test (array reads
out of range yield `undefined`) and the frame errors with an emptied
stack. -/
def jumpImpl (rs : RunState) : InstructionOutput :=
  match jsPopVal rs.stack with
  | .bigv jumpDest =>
      if (getValidJumpDests rs.context.bytecode).getD jumpDest 0 = 1 then
        { stack := jsPopRest rs.stack, programCounter := jumpDest,
          continueExecution := true, error := none }
      else
        { stack := [], programCounter := rs.programCounter + 1,
          continueExecution := false, error := some "Invalid JUMP." }
  | .undefv =>
      { stack := [], programCounter := rs.programCounter + 1,
        continueExecution := false, error := some "Invalid JUMP." }

/-- JUMPI (0x57): destination on top, condition below.  When the condition
is zero the source returns `stack: []`, replacing the whole stack with the
empty stack while continuing; a NaN condition (underflow) is not equal to 0
and falls through to the validity test. -/
def jumpiImpl (rs : RunState) : InstructionOutput :=
  let jumpDest := jsPopVal rs.stack
  let b := jsPopVal (jsPopRest rs.stack)
  if b = .bigv 0 then
    { stack := [], programCounter := rs.programCounter + 1,
      continueExecution := true, error := none }
  else
    match jumpDest with
    | .bigv v =>
        if (getValidJumpDests rs.context.bytecode).getD v 0 = 1 then
          { stack := jsPopRest (jsPopRest rs.stack), programCounter := v,
            continueExecution := true, error := none }
        else
          { stack := [], programCounter := rs.programCounter + 1,
            continueExecution := false, error := some "Invalid JUMP." }
    | .undefv =>
        { stack := [], programCounter := rs.programCounter + 1,
          continueExecution := false, error := some "Invalid JUMP." }

/-- PC (0x58). -/
def pcImpl (rs : RunState) : InstructionOutput :=
  { stack := rs.stack ++ [.bigv rs.programCounter], programCounter := rs.programCounter + 1,
    continueExecution := true, error := none }

/-- MSIZE (0x59). -/
def msizeImpl (rs : RunState) : InstructionOutput :=
  { stack := rs.stack ++ [.bigv rs.memory.length], programCounter := rs.programCounter + 1,
    continueExecution := true, error := none }

/-- GAS (0x5a): pushes gasLeft - 2; `BigInt(remainingGas)` throws a
RangeError when gasLeft is not an integer (memory expansion costs are
fractional in this interpreter), modelled as a crash. -/
def gasImpl (rs : RunState) : Res InstructionOutput :=
  let remainingGas := rs.context.gasLeft - 2
  if remainingGas < 0 then
    .ok { stack := rs.stack, programCounter := rs.programCounter + 1,
          continueExecution := false, error := some "Out of gas." }
  else if remainingGas.den = 1 then
    .ok { stack := rs.stack ++ [.bigv remainingGas.num.toNat],
          programCounter := rs.programCounter + 1, continueExecution := true, error := none }
  else .crash

/-- JUMPDEST (0x5b): no-op. -/
def jumpdestImpl (rs : RunState) : InstructionOutput :=
  { stack := rs.stack, programCounter := rs.programCounter + 1,
    continueExecution := true, error := none }

/-- PUSH0 (0x5f). -/
def push0Impl (rs : RunState) : InstructionOutput :=
  { stack := rs.stack ++ [.bigv 0], programCounter := rs.programCounter + 1,
    continueExecution := true, error := none }

/-- Helper `pushN`: read the n bytes after the opcode byte (clamped slice),
big-endian, and report the program counter advanced past them. -/
def pushN (n counter : ℕ) (bytecode : List ℕ) : ℕ × ℕ :=
  let bytesToBePushed := (bytecode.drop (counter + 1)).take n
  (counter + 1 + n, bytesToNat bytesToBePushed)

/-- PUSH1..PUSH32 (0x60..0x7f): concatenate the immediate value onto the
stack; the source has no depth check of any kind. -/
def pushImpl (n : ℕ) (rs : RunState) : InstructionOutput :=
  let res := pushN n rs.programCounter rs.context.bytecode
  { stack := rs.stack ++ [.bigv res.2], programCounter := res.1,
    continueExecution := true, error := none }

/-- Helper `dupN`: JavaScript `stack[stack.length - n]`.  Out-of-range
(including negative) indexing yields `undefined` rather than throwing, so
the try/catch in the DUP handlers never fires. -/
def dupN (n : ℕ) (stack : List JSVal) : JSVal :=
  if n ≤ stack.length then stack.getD (stack.length - n) .undefv else .undefv

/-- DUP1..DUP16 (0x80..0x8f): push `dupN n stack`; on a short stack this
silently pushes `undefined` and continues. -/
def dupImpl (n : ℕ) (rs : RunState) : InstructionOutput :=
  { stack := rs.stack ++ [dupN n rs.stack], programCounter := rs.programCounter + 1,
    continueExecution := true, error := none }

/-- Helper `swapN`, modelling the two splice calls of the source including
the degenerate underflow shapes: negative splice start indices clamp (to
length+start or 0) and the element reads yield `undefined`. -/
def swapN (n : ℕ) (stack : List JSVal) : List JSVal :=
  let len := stack.length
  let a := (stack.getLast?).getD .undefv
  let b := if n + 1 ≤ len then stack.getD (len - 1 - n) .undefv else .undefv
  let s1 :=
    if n + 1 ≤ len then stack.set (len - 1 - n) a
    else if len = 0 then [a]
    else stack.set (if 2 * len ≥ n + 1 then 2 * len - 1 - n else 0) a
  s1.set (s1.length - 1) b

/-- SWAP1..SWAP16 (0x90..0x9f); the try/catch is dead as in DUP. -/
def swapImpl (n : ℕ) (rs : RunState) : InstructionOutput :=
  { stack := swapN n rs.stack, programCounter := rs.programCounter + 1,
    continueExecution := true, error := none }

/-- RETURN (0xf3): returndata is the (expansion-triggering) memory slice. -/
def returnImpl (rs : RunState) : InstructionOutput :=
  match jsPopVal rs.stack, jsPopVal (jsPopRest rs.stack) with
  | .bigv offset, .bigv size =>
      let result := readMemorySafely rs.memory offset size
      { stack := jsPopRest (jsPopRest rs.stack), memory := some result.memory,
        programCounter := rs.programCounter + 1, returndata := some result.dataArray,
        continueExecution := false, error := none }
  | _, _ =>
      { stack := jsPopRest (jsPopRest rs.stack), programCounter := rs.programCounter + 1,
        continueExecution := false, error := some "Stack underflow" }

/-- REVERT (0xfd): like RETURN but pushes 0 and terminates with the error
string Execution reverted. -/
def revertImpl (rs : RunState) : InstructionOutput :=
  match jsPopVal rs.stack, jsPopVal (jsPopRest rs.stack) with
  | .bigv offset, .bigv size =>
      let result := readMemorySafely rs.memory offset size
      { stack := jsPopRest (jsPopRest rs.stack) ++ [.bigv 0], memory := some result.memory,
        programCounter := rs.programCounter + 1, returndata := some result.dataArray,
        continueExecution := false, error := some "Execution reverted" }
  | _, _ =>
      { stack := jsPopRest (jsPopRest rs.stack), programCounter := rs.programCounter + 1,
        continueExecution := false, error := some "Stack underflow" }

/-- CALL (0xf1), parameterised by the recursive interpreter entry `evmFn`.
In a static frame the source delegates to the REVERT handler.  Pop order:
callGas, toAddress, callValue, argsOffset, argsSize, retOffset, retSize.
The requested gas is capped against `Math.floor(gasLeft - 100) / 64` (note:
floor of the numerator only) and replaced by `⌊(gasLeft - 100) / 64⌋` (floor
of the quotient) when over the cap.  When the destination account has no
code object, the handler returns with the seven arguments popped and
NOTHING pushed.  Return-data is written back over the ORIGINAL memory; the
argument-read expansion of memory is dropped. -/
def callImpl (evmFn : Context → Res (Result × ℕ)) (rs : RunState) : Res InstructionOutput :=
  if rs.context.isStatic then .ok (revertImpl rs) else
  let t1 := jsPopRest rs.stack
  let t2 := jsPopRest t1
  let t3 := jsPopRest t2
  let t4 := jsPopRest t3
  let t5 := jsPopRest t4
  let t6 := jsPopRest t5
  let t7 := jsPopRest t6
  match jsPopVal rs.stack, jsPopVal t1, jsPopVal t2, jsPopVal t3, jsPopVal t4,
        jsPopVal t5, jsPopVal t6 with
  | .bigv callGas0, .bigv toAddress, .bigv callValue, .bigv argsOffset, .bigv argsSize,
    .bigv retOffset, .bigv _retSize =>
      let callGas : Int :=
        if (callGas0 : ℚ) > ((⌊rs.context.gasLeft - 100⌋ : Int) : ℚ) / 64 then
          ⌊(rs.context.gasLeft - 100) / 64⌋
        else callGas0
      let callArgs := readMemorySafely rs.memory argsOffset argsSize
      match (mapGet rs.context.state toAddress).bind (fun a => a.code) with
      | none =>
          .ok { stack := t7, programCounter := rs.programCounter + 1,
                continueExecution := true, error := none }
      | some destCode =>
          let subContext : Context :=
            { address := toAddress, caller := rs.context.address,
              origin := rs.context.origin, isStatic := false,
              gasPrice := rs.context.gasPrice, gasLeft := (callGas : ℚ),
              callValue := callValue, callData := callArgs.dataArray,
              bytecode := destCode.bin, block := rs.context.block,
              state := rs.context.state }
          match evmFn subContext with
          | .crash => .crash
          | .fuelOut => .fuelOut
          | .ok (callResult, _) =>
              let tempMemory := setMemorySafely rs.memory retOffset callResult.returndata
              let gasConsumed : ℚ :=
                (callGas : ℚ) + callArgs.additionalGas
                  - ((callGas : ℚ) - callResult.gas) + tempMemory.additionalGas
              .ok { stack := t7 ++ [.bigv (if callResult.success then 1 else 0)],
                    programCounter := rs.programCounter + 1,
                    memory := some tempMemory.memory,
                    returndata := some callResult.returndata,
                    additionalGas := some gasConsumed,
                    continueExecution := true, error := none,
                    stateAfter := some callResult.state }
  | _, _, _, _, _, _, _ =>
      .ok { stack := t7, programCounter := rs.programCounter + 1,
            continueExecution := false, error := some "Stack underflow" }

/-- DELEGATECALL (0xf4): six operands (no value), no static check, the
local gas counter starts at 100, and the sub-context keeps the CURRENT
address, caller and callValue, so the sub-frame deducts callValue from the
same caller account. -/
def delegatecallImpl (evmFn : Context → Res (Result × ℕ)) (rs : RunState) : Res InstructionOutput :=
  let t1 := jsPopRest rs.stack
  let t2 := jsPopRest t1
  let t3 := jsPopRest t2
  let t4 := jsPopRest t3
  let t5 := jsPopRest t4
  let t6 := jsPopRest t5
  match jsPopVal rs.stack, jsPopVal t1, jsPopVal t2, jsPopVal t3, jsPopVal t4,
        jsPopVal t5 with
  | .bigv callGas0, .bigv toAddress, .bigv argsOffset, .bigv argsSize,
    .bigv retOffset, .bigv _retSize =>
      let callGas : Int :=
        if (callGas0 : ℚ) > ((⌊rs.context.gasLeft - 100⌋ : Int) : ℚ) / 64 then
          ⌊(rs.context.gasLeft - 100) / 64⌋
        else callGas0
      let callArgs := readMemorySafely rs.memory argsOffset argsSize
      match (mapGet rs.context.state toAddress).bind (fun a => a.code) with
      | none =>
          .ok { stack := t6, programCounter := rs.programCounter + 1,
                continueExecution := true, error := none }
      | some destCode =>
          let subContext : Context :=
            { address := rs.context.address, caller := rs.context.caller,
              origin := rs.context.origin, isStatic := false,
              gasPrice := rs.context.gasPrice, gasLeft := (callGas : ℚ),
              callValue := rs.context.callValue, callData := callArgs.dataArray,
              bytecode := destCode.bin, block := rs.context.block,
              state := rs.context.state }
          match evmFn subContext with
          | .crash => .crash
          | .fuelOut => .fuelOut
          | .ok (callResult, _) =>
              let tempMemory := setMemorySafely rs.memory retOffset callResult.returndata
              let gasConsumed : ℚ :=
                100 + (callGas : ℚ) + callArgs.additionalGas
                  - ((callGas : ℚ) - callResult.gas) + tempMemory.additionalGas
              .ok { stack := t6 ++ [.bigv (if callResult.success then 1 else 0)],
                    programCounter := rs.programCounter + 1,
                    memory := some tempMemory.memory,
                    returndata := some callResult.returndata,
                    additionalGas := some gasConsumed,
                    continueExecution := true, error := none,
                    stateAfter := some callResult.state }
  | _, _, _, _, _, _ =>
      .ok { stack := t6, programCounter := rs.programCounter + 1,
            continueExecution := false, error := some "Stack underflow" }

/-- STATICCALL (0xfa): six operands, sub-context gets isStatic = true but —
unlike the yellow paper — inherits the caller's callValue.  The empty-code
early return again pushes nothing. -/
def staticcallImpl (evmFn : Context → Res (Result × ℕ)) (rs : RunState) : Res InstructionOutput :=
  let t1 := jsPopRest rs.stack
  let t2 := jsPopRest t1
  let t3 := jsPopRest t2
  let t4 := jsPopRest t3
  let t5 := jsPopRest t4
  let t6 := jsPopRest t5
  match jsPopVal rs.stack, jsPopVal t1, jsPopVal t2, jsPopVal t3, jsPopVal t4,
        jsPopVal t5 with
  | .bigv callGas0, .bigv toAddress, .bigv argsOffset, .bigv argsSize,
    .bigv retOffset, .bigv _retSize =>
      let callGas : Int :=
        if (callGas0 : ℚ) > ((⌊rs.context.gasLeft - 100⌋ : Int) : ℚ) / 64 then
          ⌊(rs.context.gasLeft - 100) / 64⌋
        else callGas0
      let callArgs := readMemorySafely rs.memory argsOffset argsSize
      match (mapGet rs.context.state toAddress).bind (fun a => a.code) with
      | none =>
          .ok { stack := t6, programCounter := rs.programCounter + 1,
                continueExecution := true, error := none }
      | some destCode =>
          let subContext : Context :=
            { address := toAddress, caller := rs.context.address,
              origin := rs.context.origin, isStatic := true,
              gasPrice := rs.context.gasPrice, gasLeft := (callGas : ℚ),
              callValue := rs.context.callValue, callData := callArgs.dataArray,
              bytecode := destCode.bin, block := rs.context.block,
              state := rs.context.state }
          match evmFn subContext with
          | .crash => .crash
          | .fuelOut => .fuelOut
          | .ok (callResult, _) =>
              let tempMemory := setMemorySafely rs.memory retOffset callResult.returndata
              let gasConsumed : ℚ :=
                (callGas : ℚ) + callArgs.additionalGas
                  - ((callGas : ℚ) - callResult.gas) + tempMemory.additionalGas
              .ok { stack := t6 ++ [.bigv (if callResult.success then 1 else 0)],
                    programCounter := rs.programCounter + 1,
                    memory := some tempMemory.memory,
                    returndata := some callResult.returndata,
                    additionalGas := some gasConsumed,
                    continueExecution := true, error := none,
                    stateAfter := some callResult.state }
  | _, _, _, _, _, _ =>
      .ok { stack := t6, programCounter := rs.programCounter + 1,
            continueExecution := false, error := some "Stack underflow" }

/-- Minimum gas of the embedded opcodes, values from the source table. -/
def minimumGas (op : ℕ) : ℚ :=
  if op = 0x00 then 0
  else if op = 0x01 then 3
  else if op = 0x02 then 5
  else if op = 0x03 then 3
  else if op = 0x04 then 5
  else if op = 0x0b then 5
  else if op = 0x56 then 8
  else if op = 0x57 then 8
  else if op = 0x58 then 2
  else if op = 0x59 then 2
  else if op = 0x5a then 2
  else if op = 0x5b then 1
  else if op = 0x5f then 2
  else if 0x60 ≤ op ∧ op ≤ 0x7f then 3
  else if 0x80 ≤ op ∧ op ≤ 0x9f then 3
  else if op = 0xf1 then 100
  else if op = 0xf3 then 0
  else if op = 0xf4 then 100
  else if op = 0xfa then 100
  else if op = 0xfd then 0
  else 0

/-- Dispatch on the embedded subset of the instruction table.  Opcodes the
source maps but no claim touches (the remaining arithmetic, comparison,
context, memory, storage and log families) are not modelled: dispatching
them is treated as a crash, and the executor theorems restrict programs to
the embedded subset. -/
def runHandler (evmFn : Context → Res (Result × ℕ)) (op : ℕ) (rs : RunState) :
    Res InstructionOutput :=
  if op = 0x00 then .ok (stopImpl rs)
  else if op = 0x01 then .ok (addImpl rs)
  else if op = 0x02 then .ok (mulImpl rs)
  else if op = 0x03 then .ok (subImpl rs)
  else if op = 0x04 then .ok (divImpl rs)
  else if op = 0x0b then .ok (signextendImpl rs)
  else if op = 0x56 then .ok (jumpImpl rs)
  else if op = 0x57 then .ok (jumpiImpl rs)
  else if op = 0x58 then .ok (pcImpl rs)
  else if op = 0x59 then .ok (msizeImpl rs)
  else if op = 0x5a then gasImpl rs
  else if op = 0x5b then .ok (jumpdestImpl rs)
  else if op = 0x5f then .ok (push0Impl rs)
  else if 0x60 ≤ op ∧ op ≤ 0x7f then .ok (pushImpl (op - 0x5f) rs)
  else if 0x80 ≤ op ∧ op ≤ 0x8f then .ok (dupImpl (op - 0x7f) rs)
  else if 0x90 ≤ op ∧ op ≤ 0x9f then .ok (swapImpl (op - 0x8f) rs)
  else if op = 0xf1 then callImpl evmFn rs
  else if op = 0xf3 then .ok (returnImpl rs)
  else if op = 0xf4 then delegatecallImpl evmFn rs
  else if op = 0xfa then staticcallImpl evmFn rs
  else if op = 0xfd then .ok (revertImpl rs)
  else .crash

/-- Per-iteration caller rewrite (bytecode-parser.ts lines 100-126): all
three branches reduce the caller's balance by callValue and keep nonce and
code; the no-code branch rebuilds the account WITHOUT a storage field. -/
def deductCallValue (acct : AccountState) (callValue : ℕ) : AccountState :=
  { balance := acct.balance - callValue, nonce := acct.nonce, code := acct.code,
    storage := if acct.code.isSome then acct.storage else none }

/-- Successful frame result (the stack is reversed to top-first). -/
def successResult (rs : RunState) : Result :=
  { success := true, stack := rs.stack.reverse, memory := rs.memory,
    gas := rs.context.gasLeft, returndata := rs.returndata, logs := rs.logs,
    state := rs.context.state }

/-- Fatal-error frame result, built after the delta was merged. -/
def failureResult (rs : RunState) : Result :=
  { success := false, stack := rs.stack.reverse, memory := rs.memory,
    gas := rs.context.gasLeft, returndata := rs.returndata, logs := rs.logs,
    state := rs.context.state }

/-- Fresh RunState at frame entry. -/
def initRunState (context : Context) : RunState :=
  { programCounter := 0, memory := [], stack := [], returndata := [], logs := [],
    context := context }

/-- The frame executor loop (bytecode-parser.ts lines 83-185), indexed by a
fuel bound.  The second component of the result counts executed loop
iterations; it is instrumentation for the theorems and influences nothing
else.  Faithfully to the source, the OUT OF ETHER branch only logs (its
return statement is commented out) but its balance read crashes when the
caller has no state entry; the out-of-gas check also only logs (that return
statement is commented out too), so the loop keeps going with negative
gasLeft and merges the delta regardless. -/
def evmLoop : ℕ → RunState → ℕ → Res (Result × ℕ)
  | 0, _, _ => .fuelOut
  | fuel + 1, rs, steps =>
    if rs.programCounter < rs.context.bytecode.length then
      let opcode := rs.context.bytecode.getD rs.programCounter 0
      match mapGet rs.context.state rs.context.caller with
      | none => .crash
      | some callerAcct =>
        let state1 := mapSet rs.context.state rs.context.caller
          (deductCallValue callerAcct rs.context.callValue)
        let rs1 : RunState := { rs with context := { rs.context with state := state1 } }
        match runHandler (fun subContext => evmLoop fuel (initRunState subContext) 0)
            opcode rs1 with
        | .crash => .crash
        | .fuelOut => .fuelOut
        | .ok result =>
          let gasLeft1 := rs1.context.gasLeft - minimumGas opcode -
            ((result.additionalGas).getD 0)
          let rs2 : RunState :=
            { programCounter := result.programCounter,
              stack := result.stack,
              memory := (result.memory).getD rs1.memory,
              returndata := (result.returndata).getD rs1.returndata,
              logs := rs1.logs ++ (result.logs).getD [],
              context := { rs1.context with
                             gasLeft := gasLeft1,
                             state := (result.stateAfter).getD state1 } }
          if (result.error).isSome then .ok (failureResult rs2, steps + 1)
          else if result.continueExecution then evmLoop fuel rs2 (steps + 1)
          else .ok (successResult rs2, steps + 1)
    else .ok (successResult rs, steps)

/-- Entry point `evm(context)`: build the initial RunState and run the
loop. -/
def evm (fuel : ℕ) (context : Context) : Res (Result × ℕ) :=
  evmLoop fuel (initRunState context) 0

/-! Shared concrete fixtures for the theorems.  The Batteries rational
operations are irreducible by default, which blocks `decide` on closed gas
computations; they are restored to semireducible locally. -/

attribute [local semireducible] Rat.sub Rat.add Rat.mul Rat.inv

/-- Block header with all-zero fields and chain id 1 (the test harness
default). -/
def emptyBlock : Block :=
  { basefee := 0, coinbase := 0, timestamp := 0, number := 0, difficulty := 0,
    gasLimit := 0, chainId := 1 }

/-- Neutral context for exercising a single handler: empty world state,
non-static, 1000 gas, empty bytecode. -/
def dummyContext : Context :=
  { address := 0xaa, caller := 0xcc, origin := 0xcc, gasPrice := 0, gasLeft := 1000,
    isStatic := false, callValue := 0, callData := [], bytecode := [],
    block := emptyBlock, state := [] }

/-- RunState over `dummyContext` with the given stack (JS order, top
last). -/
def handlerState (stack : List JSVal) : RunState :=
  { programCounter := 0, memory := [], logs := [], stack := stack, returndata := [],
    context := dummyContext }

/-! Claim C1. -/

/-- Frame with a two-byte program (PUSH1 1) and a zero gas budget; the
caller account exists with balance 0. -/
def c1Context : Context :=
  { address := 0xaa, caller := 0xcc, origin := 0xcc, gasPrice := 0, gasLeft := 0,
    isStatic := false, callValue := 0, callData := [], bytecode := [0x60, 0x01],
    block := emptyBlock, state := [(0xcc, { balance := 0, nonce := 0 })] }

/-- C1: the claim says that when charging gas drives the remaining gas below
zero the frame terminates at once with an out-of-gas fatal error
(success = false) and the delta is discarded.  In the source the out-of-gas
return (bytecode-parser.ts lines 136-144) is commented out: running PUSH1 1
with a zero gas budget drives gasLeft to -3, yet the delta is merged (stack
[1], PC past the end) and the frame completes with success = true. -/
theorem c1_out_of_gas_keeps_executing :
    evm 2 c1Context =
      .ok ({ success := true, stack := [.bigv 1], memory := [], gas := -3,
             returndata := [], logs := [],
             state := [(0xcc, { balance := 0, nonce := 0 })] }, 1) := by decide

/-! Claim C2. -/

/-- C2: the claim says a JUMPI whose condition (second from top) is zero
advances to PC+1 and pops exactly its two operands.  The handler's
condition-zero branch (opcodes.ts lines 1451-1456) instead returns
`stack: []`: with stack [5, 0, 7] (top last, so destination 7 and condition
0 above a remaining 5) the resulting stack is [] although it should be [5];
regarding the program counter the code does advance to PC+1. -/
theorem c2_jumpi_not_taken_clears_stack :
    jumpiImpl (handlerState [.bigv 5, .bigv 0, .bigv 7]) =
      { stack := [], programCounter := 1, continueExecution := true, error := none } ∧
    ([] : List JSVal) ≠ [.bigv 5] := by
  refine ⟨by decide, by decide⟩

/-! Claim C3. -/

/-- C3: the claim says CALL (and STATICCALL) to a code-less destination
pushes 1 and does nothing further.  The no-code early return (opcodes.ts
lines 2778-2783 and 2973-2978) pops the argument words and pushes NOTHING:
with seven (respectively six) zero-ish operands and an empty world state the
resulting stack is [] rather than [1].  The callback passed here crashes if
invoked, and the outputs are still ok, which also proves no sub-frame is
created; no memory, returndata, gas or state field is reported back. -/
theorem c3_call_no_code_pushes_nothing :
    callImpl (fun _ => .crash)
        (handlerState [.bigv 0, .bigv 0, .bigv 0, .bigv 0, .bigv 0, .bigv 0xaa, .bigv 0]) =
      .ok { stack := [], programCounter := 1, continueExecution := true, error := none } ∧
    staticcallImpl (fun _ => .crash)
        (handlerState [.bigv 0, .bigv 0, .bigv 0, .bigv 0, .bigv 0xaa, .bigv 0]) =
      .ok { stack := [], programCounter := 1, continueExecution := true, error := none } := by
  refine ⟨by decide, by decide⟩

/-! Claim C4. -/

/-- C4 counterexample: the claim says a handler whose delta would grow the
stack beyond 1024 entries rejects the push with a StackOverflow.  The PUSH1
handler (pushN, opcodes.ts lines 3080-3092) has no depth check at all: on a
1024-deep stack it returns a 1025-deep stack with no error and execution
continuing. -/
theorem c4_counterexample :
    (pushImpl 1 (handlerState (List.replicate 1024 (.bigv 0)))).stack.length = 1025 ∧
    (pushImpl 1 (handlerState (List.replicate 1024 (.bigv 0)))).error = none ∧
    (pushImpl 1 (handlerState (List.replicate 1024 (.bigv 0)))).continueExecution = true := by
  refine ⟨?_, rfl, rfl⟩
  simp [pushImpl, pushN, handlerState]

/-- C4 amended: the interpreter never enforces the 1024-entry stack bound.
The pushN-based handlers (PUSH1..PUSH32), PUSH0 and the DUP handlers always
return a stack exactly one entry longer, with no error and execution
continuing, whatever the current depth. -/
theorem c4_no_stack_depth_check (n : ℕ) (rs : RunState) :
    ((pushImpl n rs).stack.length = rs.stack.length + 1 ∧
      (pushImpl n rs).error = none ∧ (pushImpl n rs).continueExecution = true) ∧
    ((push0Impl rs).stack.length = rs.stack.length + 1 ∧
      (push0Impl rs).error = none ∧ (push0Impl rs).continueExecution = true) ∧
    ((dupImpl n rs).stack.length = rs.stack.length + 1 ∧
      (dupImpl n rs).error = none ∧ (dupImpl n rs).continueExecution = true) := by
  refine ⟨⟨?_, rfl, rfl⟩, ⟨?_, rfl, rfl⟩, ⟨?_, rfl, rfl⟩⟩ <;>
    simp [pushImpl, push0Impl, dupImpl, pushN]

/-! Claim C5. -/

/-- C5: the claim says an instruction short of operands (DUPn included)
returns a StackUnderflow and never silently continues or pushes a non-Word.
The dupN helper (opcodes.ts lines 3068-3070) indexes out of range, which in
JavaScript yields `undefined` instead of throwing, so the catch branch that
would report the underflow is dead: DUP1 on an empty stack pushes
`undefined` and continues with no error. -/
theorem c5_dup_underflow_silently_continues :
    dupImpl 1 (handlerState []) =
      { stack := [.undefv], programCounter := 1, continueExecution := true,
        error := none } := by decide

/-! Claim C7. -/

/-- C7: the claim states SIGNEXTEND(b, x) sign-extends x as a (b+1)-byte
two's-complement value, so SIGNEXTEND(0, 0x80) must be 2^256 - 128.  The
handler (opcodes.ts lines 304-353) instead pushes `asUintN(256, ~msb | x)`,
which sets every bit whenever the probed sign bit is set: the result here is
2^256 - 1 (all ones), not 2^256 - 128. -/
theorem c7_signextend_wrong_value :
    signextendImpl (handlerState [.bigv 0x80, .bigv 0]) =
      { stack := [.bigv (2 ^ 256 - 1)], programCounter := 1,
        continueExecution := true, error := none } ∧
    (2 ^ 256 - 1 : ℕ) ≠ 2 ^ 256 - 128 := by
  refine ⟨by decide, by decide⟩

/-! Claim C6. -/

/-- C6 counterexample: the claim says expansion grows memory to exactly
o + n rounded up to a 32-byte multiple, and that n = 0 never triggers
expansion.  expandMemory (opcodes.ts line 3215) rounds up
prevMemory.length + newLength instead: reading 32 bytes at offset 32 of a
32-byte memory yields a 96-byte memory where the claim requires 64 bytes.
And a ZERO-length write past the end (setMemorySafely with an empty value at
offset 5 of an empty memory) does trigger expansion, to 32 bytes, charging
gas. -/
theorem c6_counterexample :
    (readMemorySafely (List.replicate 32 0) 32 32).memory.length = 96 ∧
    (96 : ℕ) ≠ 64 ∧
    (setMemorySafely [] 5 []).memory.length = 32 ∧
    (setMemorySafely [] 5 []).additionalGas ≠ 0 := by
  refine ⟨by decide, by decide, by decide, by decide⟩

/-- C6 amended: a read or write of n > 0 bytes at offset o that requires
expansion (o + n exceeds the current length) grows memory to
(currentLength + o + n) rounded up to a 32-byte multiple, not to the claimed
rounding of o + n alone; a READ with n = 0 never expands; a zero-length
WRITE does not expand exactly when its offset stays within the current
length. -/
theorem c6_expansion_overshoots (mem : List ℕ) (o n : ℕ) (v : List ℕ) :
    (0 < n → mem.length < o + n →
      (readMemorySafely mem o n).memory.length = ((mem.length + (o + n) + 31) / 32) * 32) ∧
    ((readMemorySafely mem o 0).memory = mem ∧
      (readMemorySafely mem o 0).additionalGas = 0) ∧
    (mem.length < o + v.length →
      (setMemorySafely mem o v).memory.length = ((mem.length + (o + v.length) + 31) / 32) * 32) ∧
    (o ≤ mem.length →
      (setMemorySafely mem o []).memory = mem ∧
      (setMemorySafely mem o []).additionalGas = 0) := by
  refine ⟨?_, ?_, ?_, ?_⟩
  · intro hn hlen
    have hcond : ¬ ((mem.drop o).take n).length = n := by
      simp only [List.length_take, List.length_drop]
      omega
    simp only [readMemorySafely, if_neg hcond, expandMemory, List.length_append,
      List.length_replicate]
    omega
  · have hcond : ((mem.drop o).take 0).length = 0 := by simp
    simp [readMemorySafely, hcond]
  · intro hlen
    have hcond : ¬ (o + v.length ≤ mem.length) := by omega
    have hfit : o + v.length ≤ ((mem.length + (o + v.length) + 31) / 32) * 32 := by omega
    simp only [setMemorySafely, if_neg hcond, expandMemory, writeBytes,
      List.length_append, List.length_replicate, List.length_take, List.length_drop]
    omega
  · intro ho
    simp [setMemorySafely, writeBytes, ho]

/-- Witness instantiating the amended C6 statement: an 8-byte memory read at
offset 30 with 4 bytes expands to 64 = ((8 + 34 + 31) / 32) * 32 bytes. -/
theorem c6_expansion_overshoots_witness :
    (0 < 4 ∧ (List.replicate 8 0 : List ℕ).length < 30 + 4) ∧
    (readMemorySafely (List.replicate 8 0) 30 4).memory.length =
      (((List.replicate 8 0 : List ℕ).length + (30 + 4) + 31) / 32) * 32 :=
  ⟨⟨by decide, by decide⟩,
    (c6_expansion_overshoots (List.replicate 8 0) 30 4 []).1 (by decide) (by decide)⟩

/-! Claim C8. -/

/-- Reading an updated list: the written value is seen exactly at an
in-range updated index. -/
theorem getD_set_eq_ite (l : List ℕ) (i d a : ℕ) :
    (l.set i a).getD d 0 = if i = d ∧ i < l.length then a else l.getD d 0 := by
  by_cases hid : i = d
  · subst hid
    by_cases hl : i < l.length
    · simp [List.getD_eq_getElem?_getD, List.getElem?_set, hl]
    · rw [if_neg (by tauto), List.set_eq_of_length_le (by omega)]
  · simp [List.getD_eq_getElem?_getD, List.getElem?_set, hid]

/-- Soundness of the scan loop: a position can only carry mark 1 if it
already carried it or its bytecode byte is 0x5B — positions skipped as PUSH
immediates are never marked because the loop jumps straight over them. -/
theorem markJumpDests_marks_only_jumpdest (code : List ℕ) :
    ∀ (fuel i : ℕ) (jumps : List ℕ) (d : ℕ),
      (markJumpDests code fuel i jumps).getD d 0 = 1 →
      jumps.getD d 0 = 1 ∨ code.getD d 0 = 0x5b := by
  intro fuel
  induction fuel with
  | zero =>
    intro i jumps d hmark
    rw [markJumpDests] at hmark
    exact Or.inl hmark
  | succ f ih =>
    intro i jumps d hmark
    rw [markJumpDests] at hmark
    by_cases hi : i < code.length
    · rw [if_pos hi] at hmark
      simp only [] at hmark
      by_cases hpush : 0x60 ≤ code.getD i 0 ∧ code.getD i 0 ≤ 0x7f
      · rw [if_pos hpush] at hmark
        exact ih (i + (code.getD i 0 - 0x5f) + 1) jumps d hmark
      · rw [if_neg hpush] at hmark
        by_cases h5b : code.getD i 0 = 0x5b
        · rw [if_pos h5b] at hmark
          rcases ih (i + 1) (jumps.set i 1) d hmark with hj | hc
          · rw [getD_set_eq_ite] at hj
            by_cases hcase : i = d ∧ i < jumps.length
            · exact Or.inr (hcase.1 ▸ h5b)
            · exact Or.inl (by rwa [if_neg hcase] at hj)
          · exact Or.inr hc
        · rw [if_neg h5b] at hmark
          by_cases h5c : code.getD i 0 = 0x5c
          · rw [if_pos h5c] at hmark
            rcases ih (i + 1) (jumps.set i 2) d hmark with hj | hc
            · rw [getD_set_eq_ite] at hj
              by_cases hcase : i = d ∧ i < jumps.length
              · rw [if_pos hcase] at hj; omega
              · exact Or.inl (by rwa [if_neg hcase] at hj)
            · exact Or.inr hc
          · rw [if_neg h5c] at hmark
            exact ih (i + 1) jumps d hmark
    · rw [if_neg hi] at hmark
      exact Or.inl hmark

/-- The position array starts all-zero, so a 1 in getValidJumpDests means
the byte there is 0x5B (and, since the scan skips PUSH immediates before it
can mark them, the position is outside every immediate span the scan
computes). -/
theorem getValidJumpDests_marked_is_jumpdest (code : List ℕ) (d : ℕ)
    (h : (getValidJumpDests code).getD d 0 = 1) : code.getD d 0 = 0x5b := by
  rcases markJumpDests_marks_only_jumpdest code code.length 0
      (List.replicate code.length 0) d h with hj | hc
  · have hz : (List.replicate code.length (0 : ℕ)).getD d 0 = 0 := by
      rw [List.getD_eq_getElem?_getD, List.getElem?_replicate]
      split <;> rfl
    omega
  · exact hc

/-- C8: every JUMP that succeeds, and every JUMPI that succeeds with a
non-zero condition (the jump actually taken), sets the program counter to
its popped destination, and that destination is marked 1 by the
jump-destination scan — which skips PUSH immediate spans — and carries the
byte 0x5B. -/
theorem c8_jumps_land_on_jumpdest (rs : RunState) (rest : List JSVal) (v : ℕ) :
    (rs.stack = rest ++ [.bigv v] → (jumpImpl rs).error = none →
      (jumpImpl rs).programCounter = v ∧ v < rs.context.bytecode.length ∧
      rs.context.bytecode.getD v 0 = 0x5b ∧
      (getValidJumpDests rs.context.bytecode).getD v 0 = 1) ∧
    (∀ c, rs.stack = rest ++ [.bigv c, .bigv v] → c ≠ 0 →
      (jumpiImpl rs).error = none →
      (jumpiImpl rs).programCounter = v ∧ v < rs.context.bytecode.length ∧
      rs.context.bytecode.getD v 0 = 0x5b ∧
      (getValidJumpDests rs.context.bytecode).getD v 0 = 1) := by
  constructor
  · intro hstack herr
    by_cases hvalid : (getValidJumpDests rs.context.bytecode).getD v 0 = 1
    · have hvalid2 : ((getValidJumpDests rs.context.bytecode)[v]?).getD 0 = 1 := by
        rwa [List.getD_eq_getElem?_getD] at hvalid
      have hbyte := getValidJumpDests_marked_is_jumpdest _ _ hvalid
      have hlen : v < rs.context.bytecode.length := by
        by_contra hge
        rw [List.getD_eq_getElem?_getD, List.getElem?_eq_none (by omega)] at hbyte
        simp at hbyte
      refine ⟨?_, hlen, hbyte, hvalid⟩
      simp [jumpImpl, hstack, jsPopVal, List.getLast?_concat, hvalid2]
    · have hvalid2 : ¬ ((getValidJumpDests rs.context.bytecode)[v]?).getD 0 = 1 := by
        rwa [List.getD_eq_getElem?_getD] at hvalid
      exfalso
      simp [jumpImpl, hstack, jsPopVal, List.getLast?_concat, hvalid2] at herr
  · intro c hstack hc herr
    have hsplit : rest ++ [JSVal.bigv c, JSVal.bigv v] =
        (rest ++ [JSVal.bigv c]) ++ [JSVal.bigv v] := by simp
    rw [hsplit] at hstack
    by_cases hvalid : (getValidJumpDests rs.context.bytecode).getD v 0 = 1
    · have hvalid2 : ((getValidJumpDests rs.context.bytecode)[v]?).getD 0 = 1 := by
        rwa [List.getD_eq_getElem?_getD] at hvalid
      have hbyte := getValidJumpDests_marked_is_jumpdest _ _ hvalid
      have hlen : v < rs.context.bytecode.length := by
        by_contra hge
        rw [List.getD_eq_getElem?_getD, List.getElem?_eq_none (by omega)] at hbyte
        simp at hbyte
      refine ⟨?_, hlen, hbyte, hvalid⟩
      simp [jumpiImpl, hstack, jsPopVal, jsPopRest, List.getLast?_concat,
        List.dropLast_concat, hvalid2, hc]
    · have hvalid2 : ¬ ((getValidJumpDests rs.context.bytecode)[v]?).getD 0 = 1 := by
        rwa [List.getD_eq_getElem?_getD] at hvalid
      exfalso
      simp [jumpiImpl, hstack, jsPopVal, jsPopRest, List.getLast?_concat,
        List.dropLast_concat, hvalid2, hc] at herr

/-- Fixture for the C8 witness: a one-byte program consisting of a single
JUMPDEST, with destination 0 on the stack. -/
def c8RunState : RunState :=
  { programCounter := 3, memory := [], logs := [], stack := [.bigv 0],
    returndata := [],
    context := { dummyContext with bytecode := [0x5b] } }

/-- Witness instantiating C8: jumping to offset 0 of the program [0x5B]
succeeds and lands on the marked JUMPDEST byte. -/
theorem c8_jumps_land_on_jumpdest_witness :
    c8RunState.stack = [] ++ [.bigv 0] ∧ (jumpImpl c8RunState).error = none ∧
    ((jumpImpl c8RunState).programCounter = 0 ∧ 0 < c8RunState.context.bytecode.length ∧
      c8RunState.context.bytecode.getD 0 0 = 0x5b ∧
      (getValidJumpDests c8RunState.context.bytecode).getD 0 0 = 1) :=
  ⟨by decide, by decide,
    (c8_jumps_land_on_jumpdest c8RunState [] 0).1 (by decide) (by decide)⟩

/-! Claim C9. -/

/-- C9: with a on top of the stack and b below, ADD pushes (a+b) mod 2^256,
MUL pushes (a·b) mod 2^256, and SUB pushes the BigInt.asUintN rendering of
a-b, which is the mathematical (a-b) mod 2^256; every result lies in
[0, 2^256). -/
theorem c9_arithmetic_wraps_mod_2pow256 (rest : List JSVal) (a b : ℕ)
    (ha : a < 2 ^ 256) (hb : b < 2 ^ 256) :
    ((addImpl (handlerState (rest ++ [.bigv b, .bigv a]))).stack
        = rest ++ [.bigv ((a + b) % 2 ^ 256)] ∧ (a + b) % 2 ^ 256 < 2 ^ 256) ∧
    ((mulImpl (handlerState (rest ++ [.bigv b, .bigv a]))).stack
        = rest ++ [.bigv ((a * b) % 2 ^ 256)] ∧ (a * b) % 2 ^ 256 < 2 ^ 256) ∧
    ((subImpl (handlerState (rest ++ [.bigv b, .bigv a]))).stack
        = rest ++ [.bigv (asUintN256 ((a : Int) - b))] ∧
      asUintN256 ((a : Int) - b) = (((a : Int) - b) % ((2 ^ 256 : ℕ) : Int)).toNat ∧
      asUintN256 ((a : Int) - b) < 2 ^ 256) := by
  have hsplit : rest ++ [JSVal.bigv b, JSVal.bigv a] =
      (rest ++ [JSVal.bigv b]) ++ [JSVal.bigv a] := by simp
  have hmodpos : (0 : ℕ) < 2 ^ 256 := by positivity
  have htoNat : asUintN256 ((a : Int) - b) < 2 ^ 256 := by
    have h1 : ((a : Int) - b) % ((2 ^ 256 : ℕ) : Int) < ((2 ^ 256 : ℕ) : Int) :=
      Int.emod_lt_of_pos _ (by positivity)
    have h2 : (0 : Int) ≤ ((a : Int) - b) % ((2 ^ 256 : ℕ) : Int) :=
      Int.emod_nonneg _ (by positivity)
    unfold asUintN256
    omega
  refine ⟨⟨?_, Nat.mod_lt _ hmodpos⟩, ⟨?_, Nat.mod_lt _ hmodpos⟩, ⟨?_, rfl, htoNat⟩⟩ <;>
    simp only [addImpl, mulImpl, subImpl, handlerState, hsplit, jsPopVal, jsPopRest,
      List.getLast?_concat, List.dropLast_concat, Option.getD_some]

/-- Witness instantiating C9 at the spec's overflow scenario: adding 1 to
2^256 - 1 wraps to 0. -/
theorem c9_arithmetic_wraps_witness :
    (2 ^ 256 - 1 : ℕ) < 2 ^ 256 ∧ (1 : ℕ) < 2 ^ 256 ∧
    ((addImpl (handlerState ([] ++ [.bigv 1, .bigv (2 ^ 256 - 1)]))).stack
      = [] ++ [.bigv ((2 ^ 256 - 1 + 1) % 2 ^ 256)] ∧
      (2 ^ 256 - 1 + 1) % 2 ^ 256 < 2 ^ 256) :=
  ⟨by decide, by decide,
    (c9_arithmetic_wraps_mod_2pow256 [] (2 ^ 256 - 1) 1 (by decide) (by decide)).1⟩

/-! Claim C10. -/

/-- Embedded opcodes that never re-enter the dispatcher and whose handlers
never touch the state map: everything modelled except the CALL family. -/
def LocalOp (op : ℕ) : Prop :=
  op = 0x00 ∨ op = 0x01 ∨ op = 0x02 ∨ op = 0x03 ∨ op = 0x04 ∨ op = 0x0b ∨
  op = 0x56 ∨ op = 0x57 ∨ op = 0x58 ∨ op = 0x59 ∨ op = 0x5a ∨ op = 0x5b ∨
  (0x5f ≤ op ∧ op ≤ 0x7f) ∨ (0x80 ≤ op ∧ op ≤ 0x9f) ∨ op = 0xf3 ∨ op = 0xfd

instance (op : ℕ) : Decidable (LocalOp op) := by
  unfold LocalOp
  infer_instance

/-- The arithmetic handlers report no state. -/
theorem addImpl_stateAfter (rs : RunState) : (addImpl rs).stateAfter = none := by
  unfold addImpl
  split <;> rfl

/-- MUL reports no state. -/
theorem mulImpl_stateAfter (rs : RunState) : (mulImpl rs).stateAfter = none := by
  unfold mulImpl
  split <;> rfl

/-- SUB reports no state. -/
theorem subImpl_stateAfter (rs : RunState) : (subImpl rs).stateAfter = none := by
  unfold subImpl
  split <;> rfl

/-- DIV reports no state. -/
theorem divImpl_stateAfter (rs : RunState) : (divImpl rs).stateAfter = none := by
  unfold divImpl
  split
  · split <;> rfl
  · rfl

/-- SIGNEXTEND reports no state. -/
theorem signextendImpl_stateAfter (rs : RunState) :
    (signextendImpl rs).stateAfter = none := by
  unfold signextendImpl
  dsimp only
  split
  · split
    · rfl
    · split <;> rfl
  · rfl

/-- JUMP reports no state. -/
theorem jumpImpl_stateAfter (rs : RunState) : (jumpImpl rs).stateAfter = none := by
  unfold jumpImpl
  split
  · split <;> rfl
  · rfl

/-- JUMPI reports no state. -/
theorem jumpiImpl_stateAfter (rs : RunState) : (jumpiImpl rs).stateAfter = none := by
  unfold jumpiImpl
  dsimp only
  split
  · rfl
  · split
    · split <;> rfl
    · rfl

/-- GAS reports no state when it returns an output at all. -/
theorem gasImpl_stateAfter (rs : RunState) (out : InstructionOutput)
    (h : gasImpl rs = .ok out) : out.stateAfter = none := by
  unfold gasImpl at h
  dsimp only at h
  split_ifs at h
  all_goals cases h <;> rfl

/-- RETURN reports no state. -/
theorem returnImpl_stateAfter (rs : RunState) : (returnImpl rs).stateAfter = none := by
  unfold returnImpl
  split <;> rfl

/-- REVERT reports no state. -/
theorem revertImpl_stateAfter (rs : RunState) : (revertImpl rs).stateAfter = none := by
  unfold revertImpl
  split <;> rfl

/-- Dispatching any local opcode yields an output without a state update. -/
theorem runHandler_local_stateAfter (evmFn : Context → Res (Result × ℕ)) (op : ℕ)
    (rs : RunState) (out : InstructionOutput) (hl : LocalOp op)
    (h : runHandler evmFn op rs = .ok out) : out.stateAfter = none := by
  rcases hl with rfl | rfl | rfl | rfl | rfl | rfl | rfl | rfl | rfl | rfl | rfl | rfl | hr | hr | rfl | rfl
  · unfold runHandler at h
    rw [if_pos rfl] at h
    cases h; rfl
  · unfold runHandler at h
    iterate 1 rw [if_neg (by omega)] at h
    rw [if_pos rfl] at h
    cases h; exact addImpl_stateAfter rs
  · unfold runHandler at h
    iterate 2 rw [if_neg (by omega)] at h
    rw [if_pos rfl] at h
    cases h; exact mulImpl_stateAfter rs
  · unfold runHandler at h
    iterate 3 rw [if_neg (by omega)] at h
    rw [if_pos rfl] at h
    cases h; exact subImpl_stateAfter rs
  · unfold runHandler at h
    iterate 4 rw [if_neg (by omega)] at h
    rw [if_pos rfl] at h
    cases h; exact divImpl_stateAfter rs
  · unfold runHandler at h
    iterate 5 rw [if_neg (by omega)] at h
    rw [if_pos rfl] at h
    cases h; exact signextendImpl_stateAfter rs
  · unfold runHandler at h
    iterate 6 rw [if_neg (by omega)] at h
    rw [if_pos rfl] at h
    cases h; exact jumpImpl_stateAfter rs
  · unfold runHandler at h
    iterate 7 rw [if_neg (by omega)] at h
    rw [if_pos rfl] at h
    cases h; exact jumpiImpl_stateAfter rs
  · unfold runHandler at h
    iterate 8 rw [if_neg (by omega)] at h
    rw [if_pos rfl] at h
    cases h; rfl
  · unfold runHandler at h
    iterate 9 rw [if_neg (by omega)] at h
    rw [if_pos rfl] at h
    cases h; rfl
  · unfold runHandler at h
    iterate 10 rw [if_neg (by omega)] at h
    rw [if_pos rfl] at h
    exact gasImpl_stateAfter rs out h
  · unfold runHandler at h
    iterate 11 rw [if_neg (by omega)] at h
    rw [if_pos rfl] at h
    cases h; rfl
  · obtain ⟨ha1, ha2⟩ := hr
    by_cases hp : op = 0x5f
    · subst hp
      unfold runHandler at h
      iterate 12 rw [if_neg (by omega)] at h
      rw [if_pos rfl] at h
      cases h; rfl
    · have hcond : 0x60 ≤ op ∧ op ≤ 0x7f := ⟨by omega, ha2⟩
      unfold runHandler at h
      iterate 13 rw [if_neg (by omega)] at h
      rw [if_pos hcond] at h
      cases h; rfl
  · obtain ⟨ha1, ha2⟩ := hr
    by_cases hd : op ≤ 0x8f
    · have hcond : 0x80 ≤ op ∧ op ≤ 0x8f := ⟨ha1, hd⟩
      unfold runHandler at h
      iterate 14 rw [if_neg (by omega)] at h
      rw [if_pos hcond] at h
      cases h; rfl
    · have hcond : 0x90 ≤ op ∧ op ≤ 0x9f := ⟨by omega, ha2⟩
      unfold runHandler at h
      iterate 15 rw [if_neg (by omega)] at h
      rw [if_pos hcond] at h
      cases h; rfl
  · unfold runHandler at h
    iterate 17 rw [if_neg (by omega)] at h
    rw [if_pos rfl] at h
    cases h; exact returnImpl_stateAfter rs
  · unfold runHandler at h
    iterate 20 rw [if_neg (by omega)] at h
    rw [if_pos rfl] at h
    cases h; exact revertImpl_stateAfter rs

/-- Looking up the key just written. -/
theorem mapGet_mapSet_self (m : WorldState) (k : ℕ) (v : AccountState) :
    mapGet (mapSet m k v) k = some v := by
  induction m with
  | nil => simp [mapGet, mapSet]
  | cons p rest ih =>
    obtain ⟨k0, v0⟩ := p
    by_cases h : k0 = k <;> simp [mapGet, mapSet, h, ih]

/-- Balance invariant of the executor loop over local programs: every
iteration rewrites the caller entry, subtracting callValue from its balance
before the handler runs, and local handlers leave the state alone, so n
executed iterations subtract n times callValue. -/
theorem evmLoop_local_balance :
    ∀ (fuel : ℕ) (rs : RunState) (steps : ℕ) (r : Result) (n : ℕ) (acct : AccountState),
      (∀ i, i < rs.context.bytecode.length → LocalOp (rs.context.bytecode.getD i 0)) →
      mapGet rs.context.state rs.context.caller = some acct →
      evmLoop fuel rs steps = .ok (r, n) →
      steps ≤ n ∧ ∃ acct2, mapGet r.state rs.context.caller = some acct2 ∧
        acct2.balance = acct.balance - ((n - steps : ℕ) : Int) * rs.context.callValue := by
  intro fuel
  induction fuel with
  | zero =>
    intro rs steps r n acct _ _ h
    rw [evmLoop] at h
    exact absurd h (by simp)
  | succ f ih =>
    intro rs steps r n acct hloc hacct h
    rw [evmLoop] at h
    by_cases hpc : rs.programCounter < rs.context.bytecode.length
    · rw [if_pos hpc, hacct] at h
      simp only [] at h
      split at h
      case _ heq => exact absurd h (by simp)
      case _ heq => exact absurd h (by simp)
      case _ result heq =>
        have hnone : result.stateAfter = none :=
          runHandler_local_stateAfter _ _ _ _ (hloc _ hpc) heq
        rw [hnone] at h
        simp only [Option.getD_none] at h
        split at h
        · rename_i herr
          rw [Res.ok.injEq, Prod.mk.injEq] at h
          obtain ⟨rfl, rfl⟩ := h
          refine ⟨by omega, deductCallValue acct rs.context.callValue, ?_, ?_⟩
          · simpa [failureResult] using mapGet_mapSet_self rs.context.state
              rs.context.caller (deductCallValue acct rs.context.callValue)
          · simp [deductCallValue]
        · split at h
          · rename_i hcont
            have key := fun hl2 hs2 =>
              ih _ (steps + 1) r n (deductCallValue acct rs.context.callValue) hl2 hs2 h
            obtain ⟨hle, acct2, hget, hbal⟩ :=
              key (fun i hi => hloc i hi)
                (mapGet_mapSet_self rs.context.state rs.context.caller
                  (deductCallValue acct rs.context.callValue))
            refine ⟨by omega, acct2, by simpa using hget, ?_⟩
            rw [hbal]
            have hcast : ((n - steps : ℕ) : Int) = ((n - (steps + 1) : ℕ) : Int) + 1 := by
              omega
            rw [hcast]
            simp only [deductCallValue]
            ring
          · rename_i hcont
            rw [Res.ok.injEq, Prod.mk.injEq] at h
            obtain ⟨rfl, rfl⟩ := h
            refine ⟨by omega, deductCallValue acct rs.context.callValue, ?_, ?_⟩
            · simpa [successResult] using mapGet_mapSet_self rs.context.state
                rs.context.caller (deductCallValue acct rs.context.callValue)
            · simp [deductCallValue]
    · rw [if_neg hpc] at h
      rw [Res.ok.injEq, Prod.mk.injEq] at h
      obtain ⟨rfl, rfl⟩ := h
      exact ⟨le_refl _, acct, by simpa [successResult] using hacct, by simp⟩

/-- C10 amended: on every loop iteration the interpreter rewrites the
caller's account entry, subtracting the frame's callValue from its balance,
BEFORE the handler runs; consequently a frame whose program bytes all lie in
the non-reentering (local) opcode subset and that executes n instructions
reduces the caller's balance by exactly n × callValue — sub-frames spawned
by the call family deduct from their own frame's caller as well, which for
DELEGATECALL is the same caller, adding further reductions, so the
unqualified claim fails — and execution crashes before the first instruction
of any non-empty program whose caller has no entry in the state map. -/
theorem c10_caller_balance_deduction :
    (∀ (fuel : ℕ) (ctx : Context) (r : Result) (n : ℕ) (acct : AccountState),
      (∀ i, i < ctx.bytecode.length → LocalOp (ctx.bytecode.getD i 0)) →
      mapGet ctx.state ctx.caller = some acct →
      evm fuel ctx = .ok (r, n) →
      ∃ acct2, mapGet r.state ctx.caller = some acct2 ∧
        acct2.balance = acct.balance - (n : Int) * ctx.callValue) ∧
    (∀ (fuel : ℕ) (ctx : Context), ctx.bytecode ≠ [] →
      mapGet ctx.state ctx.caller = none → 0 < fuel → evm fuel ctx = .crash) := by
  constructor
  · intro fuel ctx r n acct hloc hacct h
    obtain ⟨hle, acct2, hget, hbal⟩ :=
      evmLoop_local_balance fuel (initRunState ctx) 0 r n acct
        (fun i hi => hloc i hi) hacct h
    exact ⟨acct2, hget, by simpa using hbal⟩
  · intro fuel ctx hne hnone hfuel
    obtain ⟨m, rfl⟩ : ∃ m, fuel = m + 1 := ⟨fuel - 1, by omega⟩
    rw [evm, evmLoop]
    rw [if_pos (by simpa [initRunState] using List.length_pos.mpr hne)]
    simp only [initRunState]
    rw [hnone]

/-- Fixture refuting the unqualified consequence: the program pushes the six
DELEGATECALL operands and delegates to an account whose code is a single
STOP.  Caller 0xcc starts with balance 100 and the frame's callValue is 1. -/
def c10DelegateContext : Context :=
  { address := 0xaa, caller := 0xcc, origin := 0xcc, gasPrice := 0, gasLeft := 10000,
    isStatic := false, callValue := 1, callData := [],
    bytecode := [0x60, 0, 0x60, 0, 0x60, 0, 0x60, 0, 0x60, 0xbb, 0x60, 0, 0xf4],
    block := emptyBlock,
    state := [(0xcc, { balance := 100, nonce := 0 }),
              (0xbb, { balance := 0, nonce := 0,
                       code := some { asm := none, bin := [0x00] },
                       storage := some [] })] }

/-- Result of running `c10DelegateContext`. -/
def c10DelegateResult : Result :=
  { success := true, stack := [.bigv 1], memory := [], gas := 9782,
    returndata := [], logs := [],
    state := [(0xcc, { balance := 92, nonce := 0 }),
              (0xbb, { balance := 0, nonce := 0,
                       code := some { asm := none, bin := [0x00] },
                       storage := some [] })] }

/-- C10 counterexample: the frame executes n = 7 instructions with
callValue 1 and an initial caller balance of 100, yet the caller ends at
balance 92, not the 100 - 7·1 = 93 the claim's consequence demands — the
DELEGATECALL sub-frame keeps the same caller and callValue and deducts once
more. -/
theorem c10_counterexample :
    evm 20 c10DelegateContext = .ok (c10DelegateResult, 7) ∧
    c10DelegateContext.callValue = 1 ∧
    mapGet c10DelegateContext.state c10DelegateContext.caller =
      some { balance := 100, nonce := 0 } ∧
    mapGet c10DelegateResult.state c10DelegateContext.caller =
      some { balance := 92, nonce := 0 } ∧
    (92 : Int) ≠ 100 - 7 * 1 := by
  refine ⟨by decide, by decide, by decide, by decide, by decide⟩

/-- Fixture for the C10 witness: an all-local program (PUSH1 1; STOP) run
with callValue 3 by a caller holding balance 100. -/
def c10LocalContext : Context :=
  { address := 0xaa, caller := 0xcc, origin := 0xcc, gasPrice := 0, gasLeft := 1000,
    isStatic := false, callValue := 3, callData := [],
    bytecode := [0x60, 0x01, 0x00], block := emptyBlock,
    state := [(0xcc, { balance := 100, nonce := 0 })] }

/-- Witness instantiating the amended C10: the two-instruction local run
leaves the caller at 100 - 2·3 = 94, and a missing caller entry crashes a
non-empty program at once. -/
theorem c10_caller_balance_deduction_witness :
    evm 5 c10LocalContext =
      .ok ({ success := true, stack := [.bigv 1], memory := [], gas := 997,
             returndata := [], logs := [],
             state := [(0xcc, { balance := 94, nonce := 0 })] }, 2) ∧
    (∃ acct2,
      mapGet ({ success := true, stack := [.bigv 1], memory := [], gas := 997,
                returndata := [], logs := [],
                state := [(0xcc, { balance := 94, nonce := 0 })] } : Result).state
          c10LocalContext.caller = some acct2 ∧
      acct2.balance =
        ({ balance := 100, nonce := 0 } : AccountState).balance -
          ((2 : ℕ) : Int) * c10LocalContext.callValue) ∧
    evm 1 { c10LocalContext with state := [] } = .crash := by
  refine ⟨by decide, ?_, ?_⟩
  · exact (c10_caller_balance_deduction.1 5 c10LocalContext
      { success := true, stack := [.bigv 1], memory := [], gas := 997,
        returndata := [], logs := [],
        state := [(0xcc, { balance := 94, nonce := 0 })] } 2
      { balance := 100, nonce := 0 } (by decide) (by decide) (by decide))
  · exact c10_caller_balance_deduction.2 1 { c10LocalContext with state := [] }
      (by decide) (by decide) (by decide)

end Tiviem
